import Mathlib

/-!
Verification of the discrete-time PD controller in
`src/uuv_mission/control.py` (class `PDController`).

Python float values are modelled by the type `V`: a finite value is a
rational number and `nan` models IEEE NaN (every arithmetic operation
involving `nan` yields `nan`, and every comparison with `nan` is false).
Rounding of finite float arithmetic is not modelled: finite values follow
exact rational arithmetic. Infinities are not modelled; division by a
finite zero is mapped to `nan`, which is never reached on the success
path of the controller because the `dt <= 0` guard runs before the
division.

The stateful method `PDController.__call__` is embedded as a pure
function `PDController.call` returning the result (`Except` models the
`raise ValueError` path) together with the post-call state.
-/

namespace PDSpec

/-- A Python float value: a finite rational or NaN. -/
inductive V : Type
  | num (q : ℚ)
  | nan
deriving DecidableEq

namespace V

/-- Addition; NaN propagates. -/
def add : V → V → V
  | num a, num b => num (a + b)
  | _, _ => nan

/-- Subtraction; NaN propagates. -/
def sub : V → V → V
  | num a, num b => num (a - b)
  | _, _ => nan

/-- Multiplication; NaN propagates. -/
def mul : V → V → V
  | num a, num b => num (a * b)
  | _, _ => nan

/-- Division; NaN propagates. Division by a finite zero is mapped to
`nan` (IEEE infinities are out of the model; the controller's guard
rejects `dt = 0` before any division). -/
def div : V → V → V
  | num a, num b => if b = 0 then nan else num (a / b)
  | _, _ => nan

/-- The Python comparison `x <= y` as a Boolean: false whenever either
side is NaN. -/
def ble : V → V → Bool
  | num a, num b => decide (a ≤ b)
  | _, _ => false

instance : Add V := ⟨add⟩

instance : Sub V := ⟨sub⟩

instance : Mul V := ⟨mul⟩

instance : Div V := ⟨div⟩

@[simp] theorem num_add (a b : ℚ) : num a + num b = num (a + b) := rfl

@[simp] theorem num_sub (a b : ℚ) : num a - num b = num (a - b) := rfl

@[simp] theorem num_mul (a b : ℚ) : num a * num b = num (a * b) := rfl

theorem num_div (a : ℚ) {b : ℚ} (h : b ≠ 0) :
    num a / num b = num (a / b) := by
  show div (num a) (num b) = _
  simp [div, h]

@[simp] theorem div_nan (x : V) : x / nan = nan := by
  cases x <;> rfl

@[simp] theorem mul_nan (x : V) : x * nan = nan := by
  cases x <;> rfl

@[simp] theorem add_nan (x : V) : x + nan = nan := by
  cases x <;> rfl

@[simp] theorem ble_num (a b : ℚ) : ble (num a) (num b) = decide (a ≤ b) := rfl

@[simp] theorem ble_nan_left (y : V) : ble nan y = false := rfl

end V

/-- The controller state of the Python dataclass `PDController`:
proportional gain `KP`, derivative gain `KD`, stored previous error
`e_prev`. -/
structure PDController : Type where
  KP : V
  KD : V
  e_prev : V
deriving DecidableEq

/-- Construction with the source's default gains
(`KP: float = 0.15`, `KD: float = 0.6`, `e_prev: float = 0.0`). -/
def PDController.mkDefault : PDController :=
  ⟨V.num 0.15, V.num 0.6, V.num 0⟩

/-- `PDController.reset`: set `e_prev` to `0.0`. -/
def PDController.reset (c : PDController) : PDController :=
  { c with e_prev := V.num 0 }

/-- `PDController.__call__(r_t, y_t, dt)`: compute the error, check the
`dt` guard (raising `ValueError` when `dt <= 0`), form the derivative
term and the PD control law, update `e_prev`, and return the control
action. The returned pair carries the `Except` outcome and the
post-call controller state (unchanged on the error path). -/
def PDController.call (c : PDController) (r_t y_t dt : V) :
    Except String V × PDController :=
  let e_t := r_t - y_t
  if V.ble dt (V.num 0) then
    (Except.error "dt must be positive", c)
  else
    let deriv := (e_t - c.e_prev) / dt
    let u_t := c.KP * e_t + c.KD * deriv
    (Except.ok u_t, { c with e_prev := e_t })

/-- Helper: the success path of `call` on finite inputs with `dt > 0`,
in closed form. -/
theorem call_num (kp kd p r y : ℚ) {d : ℚ} (hd : ¬ d ≤ 0) :
    PDController.call ⟨V.num kp, V.num kd, V.num p⟩ (V.num r) (V.num y)
        (V.num d) =
      (Except.ok (V.num (kp * (r - y) + kd * ((r - y - p) / d))),
       ⟨V.num kp, V.num kd, V.num (r - y)⟩) := by
  have hne : d ≠ 0 := fun h => hd (le_of_eq h)
  simp [PDController.call, hd, V.num_div _ hne]

/-- C1: for every controller state `(KP, KD, previous_error)` and inputs
`r_t`, `y_t`, `dt > 0`, `compute` returns
`KP * e_t + KD * (e_t - previous_error) / dt` with `e_t = r_t - y_t`,
and its only state change is `previous_error ← e_t`. -/
theorem call_computes_pd_law (kp kd p r y d : ℚ) (hd : 0 < d) :
    PDController.call ⟨V.num kp, V.num kd, V.num p⟩ (V.num r) (V.num y)
        (V.num d) =
      (Except.ok (V.num (kp * (r - y) + kd * ((r - y - p) / d))),
       ⟨V.num kp, V.num kd, V.num (r - y)⟩) :=
  call_num kp kd p r y (not_le.mpr hd)

/-- Witness for C1 at KP=2, KD=3, previous_error=1, r=5, y=1, dt=2. -/
theorem call_computes_pd_law_witness :
    PDController.call ⟨V.num 2, V.num 3, V.num 1⟩ (V.num 5) (V.num 1)
        (V.num 2) =
      (Except.ok (V.num (2 * (5 - 1) + 3 * ((5 - 1 - 1) / 2))),
       ⟨V.num 2, V.num 3, V.num (5 - 1)⟩) :=
  call_computes_pd_law 2 3 1 5 1 2 (by norm_num)

/-- C2: `compute` fails (with the `ValueError`) exactly when `dt <= 0`;
on failure the state is returned unchanged, so any subsequent call on
the post-failure state behaves exactly as on the original state; no
other input (gains, reference, measured — including NaN values) causes
a failure. -/
theorem call_error_iff_dt_nonpos (c : PDController) (r y : V) (d : ℚ) :
    ((PDController.call c r y (V.num d)).1 =
        Except.error "dt must be positive" ↔ d ≤ 0)
    ∧ (d ≤ 0 → (PDController.call c r y (V.num d)).2 = c)
    ∧ (d ≤ 0 → ∀ r2 y2 d2,
        PDController.call (PDController.call c r y (V.num d)).2 r2 y2 d2 =
          PDController.call c r2 y2 d2) := by
  by_cases h : d ≤ 0
  · refine ⟨⟨fun _ => h, fun _ => ?_⟩, fun _ => ?_, fun _ r2 y2 d2 => ?_⟩
      <;> simp [PDController.call, h]
  · refine ⟨⟨fun he => ?_, fun hle => absurd hle h⟩,
      fun hle => absurd hle h, fun hle => absurd hle h⟩
    simp [PDController.call, h] at he

/-- Witness for C2 at dt = 0: the call fails and leaves the state
unchanged. -/
theorem call_error_iff_dt_nonpos_witness :
    (PDController.call ⟨V.num 1, V.num 2, V.num 3⟩ (V.num 4) (V.num 5)
        (V.num 0)).2 = ⟨V.num 1, V.num 2, V.num 3⟩ :=
  (call_error_iff_dt_nonpos ⟨V.num 1, V.num 2, V.num 3⟩ (V.num 4) (V.num 5)
      0).2.1 (by norm_num)

/-- One operation applied to a controller: a `reset` call or a
`compute` call (the returned control action is discarded; only the
state evolution matters for the invariant). -/
inductive Op : Type
  | reset : Op
  | compute (r_t y_t dt : V) : Op
deriving DecidableEq

/-- State evolution under one operation. -/
def step (c : PDController) : Op → PDController
  | .reset => c.reset
  | .compute r y dt => (PDController.call c r y dt).2

/-- State evolution under a sequence of operations. -/
def runOps (c : PDController) (ops : List Op) : PDController :=
  ops.foldl step c

/-- Modelled from the spec wording of the invariant: the previous error
the spec says the controller holds after a sequence of operations — the
error `r - y` of the most recent successful compute, reset to `0` by
`reset`, starting from the given value. -/
def specPrevError : V → List Op → V
  | acc, [] => acc
  | _, .reset :: ops => specPrevError (V.num 0) ops
  | acc, .compute r y dt :: ops =>
      if V.ble dt (V.num 0) then specPrevError acc ops
      else specPrevError (r - y) ops

/-- Helper: one step leaves `e_prev` unchanged on a failed compute and
otherwise sets it to the new error (or zero for reset). -/
theorem step_e_prev (c : PDController) (r y dt : V) :
    (step c .reset).e_prev = V.num 0
    ∧ (step c (.compute r y dt)).e_prev =
        if V.ble dt (V.num 0) then c.e_prev else r - y := by
  refine ⟨rfl, ?_⟩
  by_cases h : V.ble dt (V.num 0) <;> simp [step, PDController.call, h]

/-- Helper: the generalized invariant, for any starting value of
`e_prev`. -/
theorem runOps_e_prev (ops : List Op) (c : PDController) :
    (runOps c ops).e_prev = specPrevError c.e_prev ops := by
  induction ops generalizing c with
  | nil => rfl
  | cons op ops ih =>
    have hstep : runOps c (op :: ops) = runOps (step c op) ops := rfl
    cases op with
    | reset =>
      rw [hstep, ih]
      rfl
    | compute r y dt =>
      rw [hstep, ih]
      show specPrevError (step c (.compute r y dt)).e_prev ops = _
      rw [(step_e_prev c r y dt).2]
      by_cases h : V.ble dt (V.num 0) <;> simp [specPrevError, h]

/-- C3: starting from a fresh controller (`previous_error = 0.0`), after
any sequence of reset / compute operations — hence at the start of any
subsequent compute call — `e_prev` equals the error of the most recent
successful compute, or `0` if there was none or a reset came after it. -/
theorem e_prev_invariant (kp kd : V) (ops : List Op) :
    (runOps ⟨kp, kd, V.num 0⟩ ops).e_prev = specPrevError (V.num 0) ops :=
  runOps_e_prev ops ⟨kp, kd, V.num 0⟩

/-- C4: on a freshly constructed or freshly reset controller
(`previous_error = 0.0`), `compute(r, y, dt=1.0)` returns
`KP*(r-y) + KD*(r-y)`. -/
theorem call_fresh_unit_dt (kp kd r y : ℚ) (p : V) :
    (PDController.call ⟨V.num kp, V.num kd, V.num 0⟩ (V.num r) (V.num y)
        (V.num 1)).1 = Except.ok (V.num (kp * (r - y) + kd * (r - y)))
    ∧ (PDController.call (PDController.reset ⟨V.num kp, V.num kd, p⟩)
        (V.num r) (V.num y) (V.num 1)).1 =
          Except.ok (V.num (kp * (r - y) + kd * (r - y))) := by
  have h : PDController.call ⟨V.num kp, V.num kd, V.num 0⟩ (V.num r)
      (V.num y) (V.num 1) =
      (Except.ok (V.num (kp * (r - y) + kd * ((r - y - 0) / 1))),
       ⟨V.num kp, V.num kd, V.num (r - y)⟩) :=
    call_num kp kd 0 r y (by norm_num)
  constructor
  · rw [h]
    norm_num
  · show (PDController.call ⟨V.num kp, V.num kd, V.num 0⟩ (V.num r)
        (V.num y) (V.num 1)).1 = _
    rw [h]
    norm_num

/-- C5: with KP=0.15, KD=0.6 and previous_error=0.0,
`compute(1.0, 0.0, 1.0)` returns 0.75 and sets previous_error to 1.0,
and the immediately following `compute(1.0, 0.5, 1.0)` returns -0.225. -/
theorem two_step_sequence :
    PDController.call ⟨V.num 0.15, V.num 0.6, V.num 0⟩ (V.num 1) (V.num 0)
        (V.num 1) =
      (Except.ok (V.num 0.75), ⟨V.num 0.15, V.num 0.6, V.num 1⟩)
    ∧ PDController.call ⟨V.num 0.15, V.num 0.6, V.num 1⟩ (V.num 1)
        (V.num 0.5) (V.num 1) =
      (Except.ok (V.num (-0.225)), ⟨V.num 0.15, V.num 0.6, V.num 0.5⟩) := by
  constructor
  · rw [@call_num 0.15 0.6 0 1 0 1 (by norm_num)]
    norm_num
  · rw [@call_num 0.15 0.6 1 1 0.5 1 (by norm_num)]
    norm_num

/-- C6: `reset` is idempotent, its only effect is setting `e_prev` to
`0.0` (the gains are untouched), and after a reset `compute` behaves
exactly as on a freshly constructed controller with the same gains. -/
theorem reset_idempotent_and_fresh (c : PDController) :
    PDController.reset (PDController.reset c) = PDController.reset c
    ∧ PDController.reset c = ⟨c.KP, c.KD, V.num 0⟩
    ∧ ∀ r y dt, PDController.call (PDController.reset c) r y dt =
        PDController.call ⟨c.KP, c.KD, V.num 0⟩ r y dt :=
  ⟨rfl, rfl, fun _ _ _ => rfl⟩

/-- C7: with KD = 0 the output is exactly `KP * e_t`, independent of
`previous_error` and `dt`; with KP = 0 it is exactly
`KD * (e_t - previous_error) / dt`. -/
theorem gain_zero_boundary (kp kd p r y d : ℚ) (hd : 0 < d) :
    (PDController.call ⟨V.num kp, V.num 0, V.num p⟩ (V.num r) (V.num y)
        (V.num d)).1 = Except.ok (V.num (kp * (r - y)))
    ∧ (PDController.call ⟨V.num 0, V.num kd, V.num p⟩ (V.num r) (V.num y)
        (V.num d)).1 = Except.ok (V.num (kd * ((r - y - p) / d))) := by
  constructor
  · rw [@call_num kp 0 p r y d (not_le.mpr hd)]
    norm_num
  · rw [@call_num 0 kd p r y d (not_le.mpr hd)]
    norm_num

/-- Witness for C7 at KP=2, previous_error=3, r=7, y=4, dt=5, KD=0. -/
theorem gain_zero_boundary_witness :
    (PDController.call ⟨V.num 2, V.num 0, V.num 3⟩ (V.num 7) (V.num 4)
        (V.num 5)).1 = Except.ok (V.num (2 * (7 - 4))) :=
  (gain_zero_boundary 2 9 3 7 4 5 (by norm_num)).1

/-- C8: for a fixed state and fixed inputs, the derivative contribution
at `dt = 0.5` is exactly twice the one at `dt = 1.0` — the output at
`dt = 0.5` is `KP*e + 2*(KD*((e - e_prev)/1))` while at `dt = 1.0` it is
`KP*e + KD*((e - e_prev)/1)` — with the proportional term `KP*e`
unchanged. -/
theorem derivative_scaling_half_dt (kp kd p r y : ℚ) :
    PDController.call ⟨V.num kp, V.num kd, V.num p⟩ (V.num r) (V.num y)
        (V.num (1/2)) =
      (Except.ok (V.num (kp * (r - y) + 2 * (kd * ((r - y - p) / 1)))),
       ⟨V.num kp, V.num kd, V.num (r - y)⟩)
    ∧ PDController.call ⟨V.num kp, V.num kd, V.num p⟩ (V.num r) (V.num y)
        (V.num 1) =
      (Except.ok (V.num (kp * (r - y) + kd * ((r - y - p) / 1))),
       ⟨V.num kp, V.num kd, V.num (r - y)⟩) := by
  constructor
  · rw [@call_num kp kd p r y (1/2) (by norm_num)]
    have h : kd * ((r - y - p) / (1/2)) = 2 * (kd * ((r - y - p) / 1)) := by
      ring
    rw [h]
  · exact @call_num kp kd p r y 1 (by norm_num)

/-- C9: `call` is a pure function of the controller fields and its
arguments (it is a Lean function of exactly those); the gains are never
modified by `call` or `reset`; and the only state change `call` ever
makes is the `e_prev` update (on the error path the state is returned
unchanged). -/
theorem call_frame (c : PDController) (r y dt : V) :
    (PDController.call c r y dt).2.KP = c.KP
    ∧ (PDController.call c r y dt).2.KD = c.KD
    ∧ (PDController.reset c).KP = c.KP
    ∧ (PDController.reset c).KD = c.KD
    ∧ ((PDController.call c r y dt).2 = c
        ∨ (PDController.call c r y dt).2 = { c with e_prev := r - y }) := by
  by_cases h : V.ble dt (V.num 0) <;>
    simp [PDController.call, PDController.reset, h]

/-- C10: when `dt` is NaN the guard `dt <= 0` is false, so the call does
not raise: it returns a NaN control action and still updates `e_prev`
to `r_t - y_t`. -/
theorem call_nan_dt (c : PDController) (r y : ℚ) :
    PDController.call c (V.num r) (V.num y) V.nan =
      (Except.ok V.nan, { c with e_prev := V.num (r - y) }) := by
  simp [PDController.call]

end PDSpec
